import Mathlib

/-!
Verification development for the homeboy command dispatcher.

The templating core (template AST, regex synthesis, matcher post-processing,
bundle loader, dispatcher) is embedded shallowly below. External collaborators
(the pest grammar, the regex crate, the cortex interpreter) are modelled as
oracle parameters, since only their interfaces are visible to the core.
Machine strings are Lean strings; the character predicates model the ASCII
fragment of the Rust Unicode predicates, which is the fragment the templates
and inputs of this program use.
-/

namespace Homeboy

/-- Model of Rust str::trim: drop whitespace from both ends. -/
def rustTrim (s : String) : String :=
  String.mk (((s.data.dropWhile Char.isWhitespace).reverse.dropWhile Char.isWhitespace).reverse)

/-- A string with no leading and no trailing whitespace character. -/
def noEdgeWhitespace (s : String) : Bool :=
  (match s.data.head? with
   | some c => !c.isWhitespace
   | none => true) &&
  (match s.data.getLast? with
   | some c => !c.isWhitespace
   | none => true)

/-- Helper for Rust str::split_whitespace: accumulates the current word. -/
def splitWhitespaceAux : List Char → List Char → List (List Char)
  | [], [] => []
  | [], cur => [cur.reverse]
  | c :: rest, cur =>
    if c.isWhitespace then
      match cur with
      | [] => splitWhitespaceAux rest []
      | _ => cur.reverse :: splitWhitespaceAux rest []
    else splitWhitespaceAux rest (c :: cur)

/-- Model of Rust str::split_whitespace: whitespace-separated words, no empties. -/
def splitWhitespace (s : String) : List String :=
  (splitWhitespaceAux s.data []).map String.mk

/-- Model of Rust str::replace with the one-space pattern and replacement \s* . -/
def replaceSpaceChars : List Char → List Char
  | [] => []
  | c :: rest =>
    if c = ' ' then '\\' :: 's' :: '*' :: replaceSpaceChars rest
    else c :: replaceSpaceChars rest

/-- replace(" ", \s*) lifted to strings, as used by the regex synthesis. -/
def rustReplaceSpaces (s : String) : String :=
  String.mk (replaceSpaceChars s.data)

/-- Model of Rust str::to_lowercase on the ASCII fragment. -/
def rustToLower (s : String) : String :=
  String.mk (s.data.map Char.toLower)

/-- Model of Rust str::starts_with on a literal pattern: the pattern is a
prefix of the character sequence. -/
def rustStartsWith (s pat : String) : Bool :=
  pat.data.isPrefixOf s.data

/-- Input normalization of CommandRunner::run: lowercase, then keep only
alphanumeric and whitespace characters. -/
def sanitizeInput (input : String) : String :=
  String.mk ((input.data.map Char.toLower).filter (fun c => c.isAlphanum || c.isWhitespace))

mutual

/-- templating/template.rs SymbolInternal (the variant spelling used by
parser.rs and matcher.rs, where the literal word constructor is named Text). -/
inductive SymbolInternal where
  | Text : String → SymbolInternal
  | SubtemplateCall : String → SymbolInternal
  | VarBind : String → SymbolInternal
  | Template : Template → SymbolInternal

/-- templating/template.rs Symbol: a symbol kind with an optional flag. -/
inductive Symbol where
  | mk : SymbolInternal → Bool → Symbol

/-- templating/template.rs Clause: an ordered sequence of symbols. -/
inductive Clause where
  | mk : List Symbol → Clause

/-- templating/template.rs Template: an ordered sequence of clauses. -/
inductive Template where
  | mk : List Clause → Template

end

def Symbol.symbol : Symbol → SymbolInternal
  | .mk s _ => s

def Symbol.optional : Symbol → Bool
  | .mk _ o => o

def Clause.symbols : Clause → List Symbol
  | .mk s => s

def Template.clauses : Template → List Clause
  | .mk c => c

/-- templating/matcher.rs TemplateError. -/
inductive TemplateError where
  | SubtemplateNotFound : String → TemplateError
  | InvalidRegex : TemplateError
deriving DecidableEq

/-- The subtemplate dictionary of TemplateMatcher, as an association list with
HashMap get/insert semantics (latest insertion wins). -/
def SubtemplateTable : Type := List (String × Template)

/-- HashMap::get on the subtemplate dictionary. -/
def lookupSub (tbl : SubtemplateTable) (name : String) : Option Template :=
  match tbl with
  | [] => none
  | (k, v) :: rest => if k = name then some v else lookupSub rest name

/-- TemplateMatcher::add_subtemplate: HashMap::insert of the given name. -/
def add_subtemplate (tbl : SubtemplateTable) (name : String) (template : Template) :
    SubtemplateTable :=
  (name, template) :: tbl

/-- Collecting an iterator of results, stopping at the first error, as
Rust collect::<Result<Vec<_>, E>> does.  The outer Option is fuel exhaustion
of the model (no Rust counterpart). -/
def collectResults : List (Option (Except TemplateError String)) →
    Option (Except TemplateError (List String))
  | [] => some (.ok [])
  | none :: _ => none
  | some (.error e) :: _ => some (.error e)
  | some (.ok s) :: rest =>
    match collectResults rest with
    | none => none
    | some (.error e) => some (.error e)
    | some (.ok ss) => some (.ok (s :: ss))

/-- The per-symbol body of TemplateMatcher::convert_template_to_regex_internal,
with the recursive self call abstracted as rec.  The Bool component mirrors the
parens_added flag of the source. -/
def convertSymbolWith (tbl : SubtemplateTable)
    (rec : Template → Option (Except TemplateError String)) (sym : Symbol) :
    Option (Except TemplateError String) :=
  match sym with
  | .mk internal optional =>
    let step : Bool × Option (Except TemplateError String) :=
      match internal with
      | .Text t => (false, some (.ok t))
      | .SubtemplateCall t =>
        match lookupSub tbl t with
        | some subt =>
          (true, match rec subt with
            | none => none
            | some (.error e) => some (.error e)
            | some (.ok r) => some (.ok ("(?:" ++ r ++ ")")))
        | none => (true, some (.error (.SubtemplateNotFound t)))
      | .VarBind name => (true, some (.ok ("(?<" ++ name ++ ">.*)")))
      | .Template t =>
        (true, match rec t with
          | none => none
          | some (.error e) => some (.error e)
          | some (.ok r) => some (.ok ("(?:" ++ r ++ ")")))
    match step with
    | (_, none) => none
    | (_, some (.error e)) => some (.error e)
    | (parens_added, some (.ok s)) =>
      if optional then
        if parens_added then some (.ok (s ++ "?"))
        else some (.ok ("(?:" ++ s ++ ")?"))
      else some (.ok s)

/-- The per-clause body of convert_template_to_regex_internal: convert each
symbol, collect, join with a single space. -/
def convertClauseWith (tbl : SubtemplateTable)
    (rec : Template → Option (Except TemplateError String)) (c : Clause) :
    Option (Except TemplateError String) :=
  match collectResults (c.symbols.map (convertSymbolWith tbl rec)) with
  | none => none
  | some (.error e) => some (.error e)
  | some (.ok joint_symbols) => some (.ok (String.intercalate " " joint_symbols))

/-- One level of convert_template_to_regex_internal: convert each clause,
join with |, replace spaces by \s* and lowercase. -/
def convertTemplateWith (tbl : SubtemplateTable)
    (rec : Template → Option (Except TemplateError String)) (t : Template) :
    Option (Except TemplateError String) :=
  match collectResults (t.clauses.map (convertClauseWith tbl rec)) with
  | none => none
  | some (.error e) => some (.error e)
  | some (.ok joint_clauses) =>
    some (.ok (rustToLower (rustReplaceSpaces (String.intercalate "|" joint_clauses))))

/-- TemplateMatcher::convert_template_to_regex_internal.  The fuel bounds the
recursion depth (in particular through subtemplate expansion, which in the
source is unbounded and diverges on cyclic tables); none means the fuel ran
out before the source recursion finished. -/
def convert_template_to_regex_internal (tbl : SubtemplateTable) :
    Nat → Template → Option (Except TemplateError String)
  | 0, _ => none
  | fuel + 1, t => convertTemplateWith tbl (convert_template_to_regex_internal tbl fuel) t

/-- TemplateMatcher::convert_template_to_regex: anchor the inner regex. -/
def convert_template_to_regex (tbl : SubtemplateTable) (fuel : Nat) (t : Template) :
    Option (Except TemplateError String) :=
  match convert_template_to_regex_internal tbl fuel t with
  | none => none
  | some (.error e) => some (.error e)
  | some (.ok s) => some (.ok ("^" ++ s ++ "$"))

/-- templating/matcher.rs Match: the named bindings of a successful match,
as an association list (capture names of one compiled regex are distinct). -/
structure Match where
  variable_bindings : List (String × String)

/-- HashMap::get on a bindings map. -/
def lookupBinding : List (String × String) → String → Option String
  | [], _ => none
  | (k, v) :: rest, name => if k = name then some v else lookupBinding rest name

/-- Match::get_binding. -/
def Match.get_binding (m : Match) (name : String) : Option String :=
  lookupBinding m.variable_bindings name

/-- Interface model of the external regex crate: whether Regex::new accepts a
pattern, the capture_names of the compiled regex (none for an unnamed group),
and for captures the per-name participating match text. -/
structure RegexEngine where
  compileOk : String → Bool
  captureNames : String → List (Option String)
  captures : String → String → Option (String → Option String)

/-- The binding collection of TemplateMatcher::try_match: flatten the capture
names, keep participating groups, trim each captured text. -/
def collectBindings (names : List (Option String)) (cap : String → Option String) :
    List (String × String) :=
  (names.filterMap id).filterMap (fun name => (cap name).map (fun m => (name, rustTrim m)))

/-- TemplateMatcher::try_match over the engine interface. -/
def try_match (eng : RegexEngine) (fuel : Nat) (tbl : SubtemplateTable)
    (input : String) (t : Template) : Option (Except TemplateError (Option Match)) :=
  match convert_template_to_regex tbl fuel t with
  | none => none
  | some (.error e) => some (.error e)
  | some (.ok regex_str) =>
    if eng.compileOk regex_str then
      match eng.captures regex_str input with
      | some cap =>
        some (.ok (some (Match.mk (collectBindings (eng.captureNames regex_str) cap))))
      | none => some (.ok none)
    else some (.error .InvalidRegex)

/-- templating/handler.rs TemplateHandlerError. -/
inductive TemplateHandlerError where
  | IllegalLine : String → TemplateHandlerError
  | UnexpectedEof : String → TemplateHandlerError
deriving DecidableEq

/-- templating/handler.rs TemplateHandler state: the matcher table, the entry
list in file order, and the optional fallback.  F is the processed handler
type (RFunction of the external interpreter). -/
structure HandlerState (F : Type) where
  subtemplates : SubtemplateTable
  templates : List (Template × F)
  fallback : Option F

/-- TemplateHandler::find_function: first entry in order whose template
matches; matcher errors propagate. -/
def find_function {F : Type} (eng : RegexEngine) (fuel : Nat) (tbl : SubtemplateTable)
    (entries : List (Template × F)) (input : String) :
    Option (Except TemplateError (Option (F × Match))) :=
  match entries with
  | [] => some (.ok none)
  | (t, f) :: rest =>
    match try_match eng fuel tbl input t with
    | none => none
    | some (.error e) => some (.error e)
    | some (.ok (some m)) => some (.ok (some (f, m)))
    | some (.ok none) => find_function eng fuel tbl rest input

/-- TemplateHandler::get_fallback. -/
def get_fallback {F : Type} (st : HandlerState F) : Option F :=
  st.fallback

/-- The while loop of load_next_thing that collects lines until a line starting
with the end marker: starts from the given line, pushes each non-end line and
reads on; input exhaustion is an UnexpectedEof at the given stage.  Returns the
collected lines and the remaining iterator. -/
def collectLinesUntilEnd (stage : String) (line : String) (iter : List String) :
    Except TemplateHandlerError (List String × List String) :=
  if rustStartsWith line "% end" then .ok ([], iter)
  else
    match iter with
    | [] => .error (.UnexpectedEof stage)
    | next :: rest =>
      match collectLinesUntilEnd stage next rest with
      | .error e => .error e
      | .ok (ls, remaining) => .ok (line :: ls, remaining)

/-- Interface model of the external parsers consumed by the loader: the pest
template parser (its grammar file is external to the core sources), the cortex
function parser and the interpreter preprocessor.  none models a parse error. -/
structure ExternalParsers (F : Type) where
  parseTemplate : String → Option Template
  parseFunction : String → Option F
  preprocessFunction : F → Option F

/-- Loader failure: a handler error of the loader itself, or an error
propagated from an external parser. -/
inductive LoadError where
  | handler : TemplateHandlerError → LoadError
  | externalFailure : LoadError
deriving DecidableEq

/-- TemplateHandler::load_next_thing on a line iterator modelled as a list:
a blank line is consumed and ignored; a directive section is consumed and
applied to the state; anything else is an IllegalLine. -/
def load_next_thing {F : Type} (ps : ExternalParsers F) (st : HandlerState F) :
    List String → Except LoadError (HandlerState F × List String)
  | [] => .error (.handler (.UnexpectedEof "loading next element"))
  | line :: iter =>
    if (rustTrim line).data = [] then .ok (st, iter)
    else if rustStartsWith line "% temp" then
      match iter with
      | [] => .error (.handler (.UnexpectedEof "reading template header"))
      | template_line :: iter2 =>
        match collectLinesUntilEnd "reading template function" "" iter2 with
        | .error e => .error (.handler e)
        | .ok (function_lines, rest) =>
          let function_string := String.intercalate "\n" (function_lines.drop 1)
          match ps.parseTemplate template_line with
          | none => .error .externalFailure
          | some template =>
            match ps.parseFunction function_string with
            | none => .error .externalFailure
            | some f =>
              match ps.preprocessFunction f with
              | none => .error .externalFailure
              | some processed =>
                .ok ({ st with templates := st.templates ++ [(template, processed)] }, rest)
    else if rustStartsWith line "% sub" then
      match iter with
      | [] => .error (.handler (.UnexpectedEof "reading subtemplate header"))
      | name :: iter2 =>
        match collectLinesUntilEnd "reading subtemplate body" "" iter2 with
        | .error e => .error (.handler e)
        | .ok (subtemplate_lines, rest) =>
          let subtemplate_str := String.join subtemplate_lines
          match ps.parseTemplate subtemplate_str with
          | none => .error .externalFailure
          | some subt =>
            .ok ({ st with subtemplates := add_subtemplate st.subtemplates name subt }, rest)
    else if rustStartsWith line "% fallback" then
      match collectLinesUntilEnd "reading fallback function" "" iter with
      | .error e => .error (.handler e)
      | .ok (function_lines, rest) =>
        let function_string := String.intercalate "\n" (function_lines.drop 1)
        match ps.parseFunction function_string with
        | none => .error .externalFailure
        | some f =>
          match ps.preprocessFunction f with
          | none => .error .externalFailure
          | some processed => .ok ({ st with fallback := some processed }, rest)
    else .error (.handler (.IllegalLine line))

/-- The value space the dispatcher constructs for handler arguments
(interpreting/value.rs CortexValue, restricted to what run produces). -/
inductive CortexValue where
  | String : String → CortexValue
  | None : CortexValue
deriving DecidableEq

/-- Model of the cortex parameter types as far as the dispatcher interface
exposes them (string, optional string, and anything else). -/
inductive CortexTypeModel where
  | string : CortexTypeModel
  | optionalString : CortexTypeModel
  | number : CortexTypeModel
  | otherType : String → CortexTypeModel
deriving DecidableEq

/-- Model of a processed handler (RFunction): ordered parameter names with
their declared types; num_params is the list length and get_param i the name
at index i. -/
structure RFunctionModel where
  params : List (String × CortexTypeModel)
deriving DecidableEq

/-- runner/runner.rs RunnerError. -/
inductive RunnerError where
  | BindingNotFound : String → RunnerError
  | InvalidParameterType : String → RunnerError
  | ListenError : RunnerError
deriving DecidableEq

/-- An error surfaced by CommandRunner::run: a matcher error propagated from
find_function, or a RunnerError raised by run itself. -/
inductive RunError where
  | template : TemplateError → RunError
  | runner : RunnerError → RunError
deriving DecidableEq

/-- The externally visible effect of one CommandRunner::run call: which
handler the interpreter is asked to call with which argument list (the return
value is discarded by the source), or no call at all. -/
inductive RunAction where
  | callFunction : RFunctionModel → List CortexValue → RunAction
  | noop : RunAction
deriving DecidableEq

/-- The argument assembly loop of CommandRunner::run: for parameter i, the
captured binding for its name as a string value, or the null value. -/
def assembleValues (params : List (String × CortexTypeModel)) (inst : Match) :
    List CortexValue :=
  params.map (fun param =>
    match inst.get_binding param.1 with
    | some binding => CortexValue.String binding
    | none => CortexValue.None)

/-- CommandRunner::run: sanitize the input, find the first matching entry,
assemble the argument values and call the handler; otherwise call the fallback
on the original input when one exists. -/
def run (eng : RegexEngine) (fuel : Nat) (st : HandlerState RFunctionModel)
    (input : String) : Option (Except RunError RunAction) :=
  let sanitized_input := sanitizeInput input
  match find_function eng fuel st.subtemplates st.templates sanitized_input with
  | none => none
  | some (.error e) => some (.error (.template e))
  | some (.ok (some (func, inst))) =>
    some (.ok (.callFunction func (assembleValues func.params inst)))
  | some (.ok none) =>
    match get_fallback st with
    | some func => some (.ok (.callFunction func [CortexValue.String input]))
    | none => some (.ok .noop)

/-- templating/parser.rs TemplateParser::split_words: a Text symbol becomes one
Text per whitespace-separated word; other symbols are untouched. -/
def split_words : SymbolInternal → List SymbolInternal
  | .Text text => (splitWhitespace text).map SymbolInternal.Text
  | symbol => [symbol]

/-- The enumerate-and-map step of parse_clause: index i gets the optional flag
exactly when it is the last index. -/
def markLastOptional (len : Nat) (optional : Bool) :
    Nat → List SymbolInternal → List Symbol
  | _, [] => []
  | i, internal :: rest =>
    (if i == len - 1 then Symbol.mk internal optional else Symbol.mk internal false)
      :: markLastOptional len optional (i + 1) rest

/-- The text-splitting normalization of TemplateParser::parse_clause applied to
the parsed symbol list. -/
def normalizeSymbols (symbols : List Symbol) : List Symbol :=
  (symbols.map (fun sym =>
    let symbol_split := split_words sym.symbol
    markLastOptional symbol_split.length sym.optional 0 symbol_split)).flatten

/-- Spec-side description of the word-splitting rule: one Text per word, the
trailing word inherits the optional flag, the preceding words are
non-optional, and non-Text symbols are unchanged. -/
def expandSymbolSpec (sym : Symbol) : List Symbol :=
  match sym with
  | .mk (.Text t) optional =>
    let ws := splitWhitespace t
    (ws.dropLast.map (fun w => Symbol.mk (.Text w) false)) ++
      (match ws.getLast? with
       | some w => [Symbol.mk (.Text w) optional]
       | none => [])
  | s => [s]

/-- Spec-side: the symbol kinds whose regex fragment already carries its own
parentheses (everything except a literal Text). -/
def parensEmitted : SymbolInternal → Bool
  | .Text _ => false
  | _ => true

mutual

/-- A template contains a SubtemplateCall with the given name, possibly inside
a nested inline template (not through table expansion). -/
inductive TemplateContainsCall (n : String) : Template → Prop where
  | mk : ∀ (clauses : List Clause) (c : Clause), c ∈ clauses → ClauseContainsCall n c →
      TemplateContainsCall n (Template.mk clauses)

/-- A clause contains a SubtemplateCall with the given name. -/
inductive ClauseContainsCall (n : String) : Clause → Prop where
  | mk : ∀ (syms : List Symbol) (s : Symbol), s ∈ syms → SymbolContainsCall n s →
      ClauseContainsCall n (Clause.mk syms)

/-- A symbol contains a SubtemplateCall with the given name. -/
inductive SymbolContainsCall (n : String) : Symbol → Prop where
  | call : ∀ (optional : Bool),
      SymbolContainsCall n (Symbol.mk (SymbolInternal.SubtemplateCall n) optional)
  | nested : ∀ (t : Template) (optional : Bool), TemplateContainsCall n t →
      SymbolContainsCall n (Symbol.mk (SymbolInternal.Template t) optional)

end

theorem markLastOptional_eq (opt : Bool) (l : List SymbolInternal) :
    ∀ i len : Nat, len = i + l.length →
    markLastOptional len opt i l =
      l.dropLast.map (fun x => Symbol.mk x false) ++
        (match l.getLast? with
         | some x => [Symbol.mk x opt]
         | none => []) := by
  induction l with
  | nil => intro i len _; simp [markLastOptional]
  | cons x rest ih =>
    intro i len h
    cases rest with
    | nil =>
      have hbeq : (i == len - 1) = true := by
        simp only [List.length_cons, List.length_nil] at h
        simp [h]
      simp [markLastOptional, hbeq]
    | cons y t =>
      have hbeq : (i == len - 1) = false := by
        apply beq_eq_false_iff_ne.mpr
        simp only [List.length_cons] at h
        omega
      have ih2 := ih (i + 1) len (by simp only [List.length_cons] at h ⊢; omega)
      have step : markLastOptional len opt i (x :: y :: t)
          = (if i == len - 1 then Symbol.mk x opt else Symbol.mk x false)
            :: markLastOptional len opt (i + 1) (y :: t) := rfl
      rw [step, hbeq, ih2]
      simp [List.dropLast_cons₂, List.getLast?_cons_cons]

theorem expandSymbolSpec_eq (sym : Symbol) :
    markLastOptional (split_words sym.symbol).length sym.optional 0 (split_words sym.symbol)
      = expandSymbolSpec sym := by
  cases sym with
  | mk internal opt =>
    cases internal with
    | Text t =>
      have h := markLastOptional_eq opt ((splitWhitespace t).map SymbolInternal.Text) 0
        ((splitWhitespace t).map SymbolInternal.Text).length (by simp)
      simp only [Symbol.symbol, Symbol.optional, split_words] at h ⊢
      rw [h]
      cases hws : (splitWhitespace t).getLast? with
      | none =>
        simp [expandSymbolSpec, List.getLast?_map, hws, List.map_map, Function.comp_def]
      | some w =>
        simp [expandSymbolSpec, List.getLast?_map, hws, List.map_map, Function.comp_def]
    | SubtemplateCall n =>
      simp [split_words, markLastOptional, expandSymbolSpec, Symbol.symbol, Symbol.optional]
    | VarBind n =>
      simp [split_words, markLastOptional, expandSymbolSpec, Symbol.symbol, Symbol.optional]
    | Template t =>
      simp [split_words, markLastOptional, expandSymbolSpec, Symbol.symbol, Symbol.optional]

/-- C7: the post-parse normalization of parse_clause splits every Text symbol
into one Text symbol per whitespace-separated word, in order; the last word
inherits the optional flag of the original symbol, every preceding word is
non-optional, and non-Text symbols are unchanged. -/
theorem c7_parse_clause_word_splitting (symbols : List Symbol) :
    normalizeSymbols symbols = (symbols.map expandSymbolSpec).flatten := by
  unfold normalizeSymbols
  congr 1
  exact List.map_congr_left (fun sym _ => expandSymbolSpec_eq sym)

/-- C6: for an optional symbol, the compiler appends a question mark when the
symbol kind already emitted its own parentheses (VarBind, SubtemplateCall,
NestedTemplate) and otherwise wraps the fragment as a non-capturing optional
group; in particular compiling the template of an optional literal foo yields
^(?:foo)?$ and never a character-level optional. -/
theorem c6_optional_grouping :
    (∀ (tbl : SubtemplateTable) (rec : Template → Option (Except TemplateError String))
       (internal : SymbolInternal) (s : String),
       convertSymbolWith tbl rec (Symbol.mk internal false) = some (.ok s) →
       convertSymbolWith tbl rec (Symbol.mk internal true) =
         some (.ok (if parensEmitted internal then s ++ "?" else "(?:" ++ s ++ ")?"))) ∧
    convert_template_to_regex [] 1 (Template.mk [Clause.mk [Symbol.mk (.Text "foo") true]])
      = some (.ok "^(?:foo)?$") := by
  refine ⟨?_, rfl⟩
  intro tbl rec internal s h
  cases internal with
  | Text t =>
    simp only [convertSymbolWith, if_neg Bool.false_ne_true] at h
    injection h with h2
    injection h2 with h3
    subst h3
    simp [convertSymbolWith, parensEmitted]
  | SubtemplateCall t =>
    cases hl : lookupSub tbl t with
    | none => simp [convertSymbolWith, hl] at h
    | some subt =>
      cases hr : rec subt with
      | none => simp [convertSymbolWith, hl, hr] at h
      | some exc =>
        cases exc with
        | error e => simp [convertSymbolWith, hl, hr] at h
        | ok r =>
          simp only [convertSymbolWith, hl, hr, if_neg Bool.false_ne_true] at h
          injection h with h2
          injection h2 with h3
          subst h3
          simp [convertSymbolWith, hl, hr, parensEmitted]
  | VarBind n =>
    simp only [convertSymbolWith, if_neg Bool.false_ne_true] at h
    injection h with h2
    injection h2 with h3
    subst h3
    simp [convertSymbolWith, parensEmitted]
  | Template t =>
    cases hr : rec t with
    | none => simp [convertSymbolWith, hr] at h
    | some exc =>
      cases exc with
      | error e => simp [convertSymbolWith, hr] at h
      | ok r =>
        simp only [convertSymbolWith, hr, if_neg Bool.false_ne_true] at h
        injection h with h2
        injection h2 with h3
        subst h3
        simp [convertSymbolWith, hr, parensEmitted]

/-- An always-exhausted recursion oracle, enough for non-recursive symbols. -/
def recNone : Template → Option (Except TemplateError String) := fun _ => none

/-- Witness for C6: the optional literal foo is wrapped as a non-capturing
optional group. -/
theorem c6_optional_grouping_witness :
    convertSymbolWith [] recNone (Symbol.mk (.Text "foo") false) = some (.ok "foo") ∧
    convertSymbolWith [] recNone (Symbol.mk (.Text "foo") true) = some (.ok "(?:foo)?") := by
  refine ⟨rfl, ?_⟩
  have h := c6_optional_grouping.1 [] recNone (.Text "foo") "foo" rfl
  simpa [parensEmitted] using h

/-- A one-word template used as a concrete subtemplate body. -/
def helloTemplate : Template := Template.mk [Clause.mk [Symbol.mk (.Text "hello") false]]

/-- A template that is exactly one SubtemplateCall to the name foo. -/
def callFooTemplate : Template := Template.mk [Clause.mk [Symbol.mk (.SubtemplateCall "foo") false]]

/-- External parsers that record the handler source: the template parser
returns a fixed empty template and the function parser and preprocessor are
the identity, so the stored handler equals the source string submitted. -/
def recordingParsers : ExternalParsers String :=
  { parseTemplate := fun _ => some (Template.mk []),
    parseFunction := fun s => some s,
    preprocessFunction := fun s => some s }

/-- External parsers over the unit handler type with a fixed parsed template,
used to observe subtemplate registration by the loader. -/
def constParsers : ExternalParsers Unit :=
  { parseTemplate := fun _ => some helloTemplate,
    parseFunction := fun _ => some (),
    preprocessFunction := fun _ => some () }

/-- C3 counterexample: a sub section whose name line carries trailing
whitespace registers the subtemplate under the raw line, so a later
SubtemplateCall that uses the whitespace-trimmed name does not resolve and
regex synthesis fails with SubtemplateNotFound. -/
theorem c3_counterexample :
    load_next_thing constParsers ⟨[], [], none⟩ ["% sub", "foo ", "hello", "% end"]
      = .ok (⟨[("foo ", helloTemplate)], [], none⟩, []) ∧
    rustTrim "foo " = "foo" ∧
    lookupSub (add_subtemplate [] "foo " helloTemplate) "foo" = none ∧
    convert_template_to_regex (add_subtemplate [] "foo " helloTemplate) 2 callFooTemplate
      = some (.error (.SubtemplateNotFound "foo")) :=
  ⟨rfl, rfl, rfl, rfl⟩

/-- C3 amended: the subtemplate is registered under the raw content of the
name line (no trimming), so a later SubtemplateCall resolves exactly when it
uses the raw name; when the name line carries surrounding whitespace the
trimmed name does not resolve. -/
theorem c3_amended_raw_name_registration :
    (∀ (tbl : SubtemplateTable) (name : String) (t : Template),
       lookupSub (add_subtemplate tbl name t) name = some t) ∧
    lookupSub (add_subtemplate [] "foo " helloTemplate) (rustTrim "foo ") = none := by
  refine ⟨?_, rfl⟩
  intro tbl name t
  simp [add_subtemplate, lookupSub]

theorem collectLinesUntilEnd_append (stage : String) :
    ∀ (body rest : List String) (line : String),
      rustStartsWith line "% end" = false →
      (∀ l ∈ body, rustStartsWith l "% end" = false) →
      collectLinesUntilEnd stage line (body ++ "% end" :: rest) = .ok (line :: body, rest) := by
  intro body
  induction body with
  | nil =>
    intro rest line hline _
    have inner : collectLinesUntilEnd stage "% end" rest = .ok ([], rest) := by
      unfold collectLinesUntilEnd
      rw [if_pos (show rustStartsWith "% end" "% end" = true from rfl)]
    have step : collectLinesUntilEnd stage line ([] ++ "% end" :: rest)
        = if rustStartsWith line "% end" then .ok ([], "% end" :: rest)
          else
            match collectLinesUntilEnd stage "% end" rest with
            | .error e => .error e
            | .ok (ls, remaining) => .ok (line :: ls, remaining) := rfl
    rw [step, if_neg (by rw [hline]; exact Bool.false_ne_true), inner]
  | cons b bs ih =>
    intro rest line hline hbody
    have step : collectLinesUntilEnd stage line ((b :: bs) ++ "% end" :: rest)
        = if rustStartsWith line "% end" then .ok ([], (b :: bs) ++ "% end" :: rest)
          else
            match collectLinesUntilEnd stage b (bs ++ "% end" :: rest) with
            | .error e => .error e
            | .ok (ls, remaining) => .ok (line :: ls, remaining) := rfl
    rw [step, if_neg (by rw [hline]; exact Bool.false_ne_true),
      ih rest b (hbody b (List.mem_cons_self b bs))
        (fun l hl => hbody l (List.mem_cons_of_mem b hl))]

/-- C2 amended: the element removed by the skip is an artificial empty string
pushed before the first body line, not a body line; the stored handler source
(the string submitted to the interpreter parser) consists of all of the
section body lines joined by newlines, both for temp and fallback sections. -/
theorem c2_amended_handler_body_kept (st : HandlerState String)
    (tmpl : String) (body rest : List String)
    (hbody : ∀ l ∈ body, rustStartsWith l "% end" = false) :
    load_next_thing recordingParsers st ("% temp" :: tmpl :: (body ++ "% end" :: rest))
      = .ok ({ st with
                templates := st.templates ++ [(Template.mk [], String.intercalate "\n" body)] },
             rest) ∧
    load_next_thing recordingParsers st ("% fallback" :: (body ++ "% end" :: rest))
      = .ok ({ st with fallback := some (String.intercalate "\n" body) }, rest) := by
  constructor
  · have step : load_next_thing recordingParsers st
        ("% temp" :: tmpl :: (body ++ "% end" :: rest))
        = match collectLinesUntilEnd "reading template function" "" (body ++ "% end" :: rest) with
          | .error e => .error (.handler e)
          | .ok (function_lines, rest2) =>
            .ok ({ st with templates := st.templates ++
                    [(Template.mk [], String.intercalate "\n" (function_lines.drop 1))] },
                 rest2) := rfl
    rw [step, collectLinesUntilEnd_append "reading template function" body rest "" rfl hbody]
    rfl
  · have step : load_next_thing recordingParsers st
        ("% fallback" :: (body ++ "% end" :: rest))
        = match collectLinesUntilEnd "reading fallback function" "" (body ++ "% end" :: rest) with
          | .error e => .error (.handler e)
          | .ok (function_lines, rest2) =>
            .ok ({ st with fallback := some (String.intercalate "\n" (function_lines.drop 1)) },
                 rest2) := rfl
    rw [step, collectLinesUntilEnd_append "reading fallback function" body rest "" rfl hbody]
    rfl

/-- Witness for C2 amended: a two-line body is stored in full. -/
theorem c2_amended_handler_body_kept_witness :
    (∀ l ∈ ["say hi", "done"], rustStartsWith l "% end" = false) ∧
    load_next_thing recordingParsers ⟨[], [], none⟩
      ("% temp" :: "foo" :: (["say hi", "done"] ++ "% end" :: []))
      = .ok (⟨[], [(Template.mk [], "say hi\ndone")], none⟩, []) := by
  refine ⟨by decide, ?_⟩
  exact (c2_amended_handler_body_kept ⟨[], [], none⟩ "foo" ["say hi", "done"] []
    (by decide)).1

/-- C2 counterexample: for a temp section with body lines body1 and body2 the
claim predicts the stored handler source body2 (the first body line removed);
the loader in fact stores both lines joined by a newline. -/
theorem c2_counterexample :
    load_next_thing recordingParsers ⟨[], [], none⟩
      ["% temp", "tmpl", "body1", "body2", "% end"]
      = .ok (⟨[], [(Template.mk [], "body1\nbody2")], none⟩, []) ∧
    "body1\nbody2" ≠ "body2" :=
  ⟨rfl, by decide⟩

theorem collectResults_error (tbl : SubtemplateTable)
    (l : List (Option (Except TemplateError String)))
    (hl : ∀ o ∈ l, ∀ e, o = some (.error e) →
        ∃ m, e = .SubtemplateNotFound m ∧ lookupSub tbl m = none) :
    ∀ e, collectResults l = some (.error e) →
      ∃ m, e = .SubtemplateNotFound m ∧ lookupSub tbl m = none := by
  induction l with
  | nil => intro e h; simp [collectResults] at h
  | cons x rest ih =>
    intro e h
    cases x with
    | none => simp [collectResults] at h
    | some exc =>
      cases exc with
      | error e2 =>
        have he : e2 = e := by
          simpa [collectResults] using h
        subst he
        exact hl _ (List.mem_cons_self _ _) e2 rfl
      | ok s =>
        have hrest : collectResults (some (.ok s) :: rest)
            = match collectResults rest with
              | none => none
              | some (.error e) => some (.error e)
              | some (.ok ss) => some (.ok (s :: ss)) := rfl
        rw [hrest] at h
        cases hr : collectResults rest with
        | none => rw [hr] at h; exact absurd h (by simp)
        | some exc2 =>
          cases exc2 with
          | error e3 =>
            rw [hr] at h
            have he : e3 = e := by simpa using h
            subst he
            exact ih (fun o ho => hl o (List.mem_cons_of_mem _ ho)) e3 hr
          | ok ss => rw [hr] at h; exact absurd h (by simp)

theorem convertSymbolWith_error (tbl : SubtemplateTable)
    (rec : Template → Option (Except TemplateError String))
    (hrec : ∀ t e, rec t = some (.error e) →
        ∃ m, e = .SubtemplateNotFound m ∧ lookupSub tbl m = none) :
    ∀ (sym : Symbol) (e : TemplateError),
      convertSymbolWith tbl rec sym = some (.error e) →
      ∃ m, e = .SubtemplateNotFound m ∧ lookupSub tbl m = none := by
  intro sym e h
  cases sym with
  | mk internal optional =>
    cases internal with
    | Text t =>
      cases optional <;> simp [convertSymbolWith] at h
    | SubtemplateCall t =>
      cases hl : lookupSub tbl t with
      | none =>
        have he : TemplateError.SubtemplateNotFound t = e := by
          simpa [convertSymbolWith, hl] using h
        exact ⟨t, he.symm, hl⟩
      | some subt =>
        cases hr : rec subt with
        | none => simp [convertSymbolWith, hl, hr] at h
        | some exc =>
          cases exc with
          | error e2 =>
            have he : e2 = e := by simpa [convertSymbolWith, hl, hr] using h
            subst he
            exact hrec subt e2 hr
          | ok r => cases optional <;> simp [convertSymbolWith, hl, hr] at h
    | VarBind n =>
      cases optional <;> simp [convertSymbolWith] at h
    | Template t =>
      cases hr : rec t with
      | none => simp [convertSymbolWith, hr] at h
      | some exc =>
        cases exc with
        | error e2 =>
          have he : e2 = e := by simpa [convertSymbolWith, hr] using h
          subst he
          exact hrec t e2 hr
        | ok r => cases optional <;> simp [convertSymbolWith, hr] at h

theorem convertClauseWith_error (tbl : SubtemplateTable)
    (rec : Template → Option (Except TemplateError String))
    (hrec : ∀ t e, rec t = some (.error e) →
        ∃ m, e = .SubtemplateNotFound m ∧ lookupSub tbl m = none) :
    ∀ (c : Clause) (e : TemplateError),
      convertClauseWith tbl rec c = some (.error e) →
      ∃ m, e = .SubtemplateNotFound m ∧ lookupSub tbl m = none := by
  intro c e h
  unfold convertClauseWith at h
  cases hcol : collectResults (c.symbols.map (convertSymbolWith tbl rec)) with
  | none => rw [hcol] at h; exact absurd h (by simp)
  | some exc =>
    cases exc with
    | error e2 =>
      rw [hcol] at h
      have he : e2 = e := by simpa using h
      subst he
      refine collectResults_error tbl _ ?_ e2 hcol
      intro o ho e3 heq
      obtain ⟨sym, _, hsym⟩ := List.mem_map.mp ho
      exact convertSymbolWith_error tbl rec hrec sym e3 (by rw [hsym]; exact heq)
    | ok ss => rw [hcol] at h; exact absurd h (by simp)

theorem convertTemplateWith_error (tbl : SubtemplateTable)
    (rec : Template → Option (Except TemplateError String))
    (hrec : ∀ t e, rec t = some (.error e) →
        ∃ m, e = .SubtemplateNotFound m ∧ lookupSub tbl m = none) :
    ∀ (t : Template) (e : TemplateError),
      convertTemplateWith tbl rec t = some (.error e) →
      ∃ m, e = .SubtemplateNotFound m ∧ lookupSub tbl m = none := by
  intro t e h
  unfold convertTemplateWith at h
  cases hcol : collectResults (t.clauses.map (convertClauseWith tbl rec)) with
  | none => rw [hcol] at h; exact absurd h (by simp)
  | some exc =>
    cases exc with
    | error e2 =>
      rw [hcol] at h
      have he : e2 = e := by simpa using h
      subst he
      refine collectResults_error tbl _ ?_ e2 hcol
      intro o ho e3 heq
      obtain ⟨c, _, hc⟩ := List.mem_map.mp ho
      exact convertClauseWith_error tbl rec hrec c e3 (by rw [hc]; exact heq)
    | ok ss => rw [hcol] at h; exact absurd h (by simp)

theorem convert_internal_error (tbl : SubtemplateTable) :
    ∀ (fuel : Nat) (t : Template) (e : TemplateError),
      convert_template_to_regex_internal tbl fuel t = some (.error e) →
      ∃ m, e = .SubtemplateNotFound m ∧ lookupSub tbl m = none := by
  intro fuel
  induction fuel with
  | zero => intro t e h; simp [convert_template_to_regex_internal] at h
  | succ n ih =>
    intro t e h
    exact convertTemplateWith_error tbl _ (fun t2 e2 h2 => ih t2 e2 h2) t e h

theorem collectResults_not_ok
    (l : List (Option (Except TemplateError String)))
    (o : Option (Except TemplateError String)) (ho : o ∈ l)
    (hno : ∀ s, o ≠ some (.ok s)) :
    ∀ ss, collectResults l ≠ some (.ok ss) := by
  induction l with
  | nil => cases ho
  | cons x rest ih =>
    intro ss h
    cases x with
    | none => simp [collectResults] at h
    | some exc =>
      cases exc with
      | error e => simp [collectResults] at h
      | ok s =>
        rcases List.mem_cons.mp ho with heq | hmem
        · exact hno s heq
        · have hrest : collectResults (some (.ok s) :: rest)
              = match collectResults rest with
                | none => none
                | some (.error e) => some (.error e)
                | some (.ok ss) => some (.ok (s :: ss)) := rfl
          rw [hrest] at h
          cases hr : collectResults rest with
          | none => rw [hr] at h; exact absurd h (by simp)
          | some exc2 =>
            cases exc2 with
            | error e => rw [hr] at h; exact absurd h (by simp)
            | ok ss2 => exact ih hmem ss2 hr

theorem convertSymbolWith_not_ok (tbl : SubtemplateTable)
    (rec : Template → Option (Except TemplateError String)) (n : String)
    (hn : lookupSub tbl n = none)
    (hrec : ∀ t, TemplateContainsCall n t → ∀ s, rec t ≠ some (.ok s)) :
    ∀ sym, SymbolContainsCall n sym →
      ∀ s, convertSymbolWith tbl rec sym ≠ some (.ok s) := by
  intro sym hsym
  cases hsym with
  | call optional =>
    intro s h
    simp [convertSymbolWith, hn] at h
  | nested t optional ht =>
    intro s h
    cases hr : rec t with
    | none => simp [convertSymbolWith, hr] at h
    | some exc =>
      cases exc with
      | error e => simp [convertSymbolWith, hr] at h
      | ok r => exact hrec t ht r hr

theorem convertClauseWith_not_ok (tbl : SubtemplateTable)
    (rec : Template → Option (Except TemplateError String)) (n : String)
    (hn : lookupSub tbl n = none)
    (hrec : ∀ t, TemplateContainsCall n t → ∀ s, rec t ≠ some (.ok s)) :
    ∀ c, ClauseContainsCall n c →
      ∀ s, convertClauseWith tbl rec c ≠ some (.ok s) := by
  intro c hc
  cases hc with
  | mk syms sym hmem hsym =>
    intro s h
    unfold convertClauseWith at h
    have hnot := collectResults_not_ok (syms.map (convertSymbolWith tbl rec))
      (convertSymbolWith tbl rec sym)
      (List.mem_map_of_mem _ hmem)
      (convertSymbolWith_not_ok tbl rec n hn hrec sym hsym)
    cases hcol : collectResults ((Clause.mk syms).symbols.map (convertSymbolWith tbl rec)) with
    | none => rw [hcol] at h; exact absurd h (by simp)
    | some exc =>
      cases exc with
      | error e => rw [hcol] at h; exact absurd h (by simp)
      | ok ss => exact hnot ss hcol

theorem convertTemplateWith_not_ok (tbl : SubtemplateTable)
    (rec : Template → Option (Except TemplateError String)) (n : String)
    (hn : lookupSub tbl n = none)
    (hrec : ∀ t, TemplateContainsCall n t → ∀ s, rec t ≠ some (.ok s)) :
    ∀ t, TemplateContainsCall n t →
      ∀ s, convertTemplateWith tbl rec t ≠ some (.ok s) := by
  intro t ht
  cases ht with
  | mk clauses c hmem hc =>
    intro s h
    unfold convertTemplateWith at h
    have hnot := collectResults_not_ok (clauses.map (convertClauseWith tbl rec))
      (convertClauseWith tbl rec c)
      (List.mem_map_of_mem _ hmem)
      (convertClauseWith_not_ok tbl rec n hn hrec c hc)
    cases hcol : collectResults ((Template.mk clauses).clauses.map (convertClauseWith tbl rec)) with
    | none => rw [hcol] at h; exact absurd h (by simp)
    | some exc =>
      cases exc with
      | error e => rw [hcol] at h; exact absurd h (by simp)
      | ok ss => exact hnot ss hcol

theorem convert_internal_not_ok (tbl : SubtemplateTable) (n : String)
    (hn : lookupSub tbl n = none) :
    ∀ (fuel : Nat) (t : Template), TemplateContainsCall n t →
      ∀ s, convert_template_to_regex_internal tbl fuel t ≠ some (.ok s) := by
  intro fuel
  induction fuel with
  | zero => intro t _ s h; simp [convert_template_to_regex_internal] at h
  | succ k ih =>
    intro t ht s h
    exact convertTemplateWith_not_ok tbl _ n hn (fun t2 ht2 s2 h2 => ih t2 ht2 s2 h2) t ht s h

/-- C9: if a template contains a SubtemplateCall whose name is not a key of
the subtemplate table, then regex synthesis, and hence try_match on any
input, fails with a SubtemplateNotFound error naming a missing subtemplate
(the first unresolved call in traversal order) rather than matching or
returning no match. -/
theorem c9_subtemplate_not_found :
    (∀ (tbl : SubtemplateTable) (fuel : Nat) (t : Template) (n : String)
       (r : Except TemplateError String),
       TemplateContainsCall n t → lookupSub tbl n = none →
       convert_template_to_regex tbl fuel t = some r →
       ∃ m, lookupSub tbl m = none ∧ r = .error (.SubtemplateNotFound m)) ∧
    (∀ (eng : RegexEngine) (fuel : Nat) (tbl : SubtemplateTable) (input : String)
       (t : Template) (n : String) (r : Except TemplateError (Option Match)),
       TemplateContainsCall n t → lookupSub tbl n = none →
       try_match eng fuel tbl input t = some r →
       ∃ m, lookupSub tbl m = none ∧ r = .error (.SubtemplateNotFound m)) := by
  have part1 : ∀ (tbl : SubtemplateTable) (fuel : Nat) (t : Template) (n : String)
      (r : Except TemplateError String),
      TemplateContainsCall n t → lookupSub tbl n = none →
      convert_template_to_regex tbl fuel t = some r →
      ∃ m, lookupSub tbl m = none ∧ r = .error (.SubtemplateNotFound m) := by
    intro tbl fuel t n r ht hn h
    unfold convert_template_to_regex at h
    cases hint : convert_template_to_regex_internal tbl fuel t with
    | none => rw [hint] at h; exact absurd h (by simp)
    | some exc =>
      cases exc with
      | error e =>
        rw [hint] at h
        have he : Except.error e = r := by simpa using h
        obtain ⟨m, hm, hlook⟩ := convert_internal_error tbl fuel t e hint
        exact ⟨m, hlook, by rw [← he, hm]⟩
      | ok s => exact absurd hint (by intro hc; exact convert_internal_not_ok tbl n hn fuel t ht s hc)
  refine ⟨part1, ?_⟩
  intro eng fuel tbl input t n r ht hn h
  unfold try_match at h
  cases hconv : convert_template_to_regex tbl fuel t with
  | none => rw [hconv] at h; exact absurd h (by simp)
  | some exc =>
    cases exc with
    | error e =>
      rw [hconv] at h
      have he : Except.error e = r := by simpa using h
      obtain ⟨m, hlook, hm⟩ := part1 tbl fuel t n (.error e) ht hn hconv
      have : e = .SubtemplateNotFound m := by
        injection hm with h2
      exact ⟨m, hlook, by rw [← he, this]⟩
    | ok s =>
      obtain ⟨m, _, habs⟩ := part1 tbl fuel t n (.ok s) ht hn hconv
      exact absurd habs (by simp)

/-- A template that is exactly one SubtemplateCall to the name bar. -/
def barCallTemplate : Template := Template.mk [Clause.mk [Symbol.mk (.SubtemplateCall "bar") false]]

/-- Witness for C9: a template calling the undefined subtemplate bar fails
synthesis with SubtemplateNotFound. -/
theorem c9_subtemplate_not_found_witness :
    TemplateContainsCall "bar" barCallTemplate ∧
    lookupSub [] "bar" = none ∧
    convert_template_to_regex [] 1 barCallTemplate
      = some (.error (.SubtemplateNotFound "bar")) ∧
    (∃ m, lookupSub ([] : SubtemplateTable) m = none ∧
       (Except.error (TemplateError.SubtemplateNotFound "bar") : Except TemplateError String)
         = .error (.SubtemplateNotFound m)) := by
  have hc : TemplateContainsCall "bar" barCallTemplate := by
    apply TemplateContainsCall.mk _ (Clause.mk [Symbol.mk (.SubtemplateCall "bar") false])
    · exact List.mem_singleton.mpr rfl
    · exact ClauseContainsCall.mk _ (Symbol.mk (.SubtemplateCall "bar") false)
        (List.mem_singleton.mpr rfl) (SymbolContainsCall.call false)
  refine ⟨hc, rfl, rfl, ?_⟩
  exact c9_subtemplate_not_found.1 [] 1 barCallTemplate "bar"
    (.error (.SubtemplateNotFound "bar")) hc rfl rfl

theorem head?_dropWhile_false (p : Char → Bool) :
    ∀ (l : List Char) (c : Char), (l.dropWhile p).head? = some c → p c = false := by
  intro l
  induction l with
  | nil => intro c h; simp [List.dropWhile] at h
  | cons a t ih =>
    intro c h
    rw [List.dropWhile_cons] at h
    by_cases hp : p a = true
    · rw [if_pos hp] at h
      exact ih c h
    · rw [if_neg hp] at h
      have : a = c := by simpa using h
      subst this
      exact Bool.eq_false_iff.mpr hp

theorem getLast?_dropWhile_of_ne_nil (p : Char → Bool) :
    ∀ l : List Char, l.dropWhile p ≠ [] → (l.dropWhile p).getLast? = l.getLast? := by
  intro l
  induction l with
  | nil => intro h; simp [List.dropWhile] at h
  | cons a t ih =>
    intro h
    rw [List.dropWhile_cons] at h ⊢
    by_cases hp : p a = true
    · rw [if_pos hp] at h ⊢
      have ht : t ≠ [] := by
        intro he
        subst he
        simp [List.dropWhile] at h
      rw [ih h]
      cases t with
      | nil => exact absurd rfl ht
      | cons b u => exact (List.getLast?_cons_cons).symm
    · rw [if_neg hp]

theorem noEdgeWhitespace_rustTrim (s : String) : noEdgeWhitespace (rustTrim s) = true := by
  have hdata : (rustTrim s).data
      = ((s.data.dropWhile Char.isWhitespace).reverse.dropWhile Char.isWhitespace).reverse := rfl
  unfold noEdgeWhitespace
  rw [hdata]
  rcases hd : (s.data.dropWhile Char.isWhitespace).reverse.dropWhile Char.isWhitespace
    with _ | ⟨a, d2⟩
  · simp
  · have hdne : (s.data.dropWhile Char.isWhitespace).reverse.dropWhile Char.isWhitespace
        ≠ [] := by rw [hd]; simp
    have h1 : ((s.data.dropWhile Char.isWhitespace).reverse.dropWhile
        Char.isWhitespace).reverse.head?
        = (s.data.dropWhile Char.isWhitespace).head? := by
      rw [List.head?_reverse, getLast?_dropWhile_of_ne_nil Char.isWhitespace _ hdne,
        List.getLast?_reverse]
    rw [hd] at h1
    have h2 : (a :: d2).reverse.getLast? = some a := by
      rw [List.getLast?_reverse]
      rfl
    have ha : a.isWhitespace = false := by
      apply head?_dropWhile_false Char.isWhitespace
        ((s.data.dropWhile Char.isWhitespace).reverse)
      rw [hd]
      rfl
    rw [h1, h2]
    cases hh : (s.data.dropWhile Char.isWhitespace).head? with
    | none =>
      simp [ha]
    | some c =>
      have hc : c.isWhitespace = false := head?_dropWhile_false Char.isWhitespace s.data c hh
      simp [ha, hc]

theorem collectBindings_mem (names : List (Option String)) (cap : String → Option String)
    (n v : String) (h : (n, v) ∈ collectBindings names cap) :
    ∃ raw, cap n = some raw ∧ v = rustTrim raw := by
  unfold collectBindings at h
  rw [List.mem_filterMap] at h
  obtain ⟨name, _, hval⟩ := h
  cases hc : cap name with
  | none => rw [hc] at hval; simp at hval
  | some raw =>
    rw [hc] at hval
    simp only [Option.map_some', Option.some.injEq, Prod.mk.injEq] at hval
    obtain ⟨h1, h2⟩ := hval
    exact ⟨raw, by rw [← h1]; exact hc, h2.symm⟩

theorem lookupBinding_filterMap_none (cap : String → Option String) (n : String)
    (hc : cap n = none) :
    ∀ ns : List String,
      lookupBinding (ns.filterMap (fun name => (cap name).map (fun m => (name, rustTrim m)))) n
        = none := by
  intro ns
  induction ns with
  | nil => rfl
  | cons a t ih =>
    rw [List.filterMap_cons]
    cases hca : cap a with
    | none => exact ih
    | some raw =>
      simp only [Option.map_some']
      unfold lookupBinding
      by_cases han : a = n
      · subst han
        rw [hca] at hc
        exact absurd hc (by simp)
      · rw [if_neg han]
        exact ih

/-- C8: when try_match succeeds with a match, every binding value is the
whitespace-trimmed text captured by the corresponding named group (hence no
binding value has leading or trailing whitespace), and a name whose capture
group did not participate in the match is absent from the bindings. -/
theorem c8_binding_trim (eng : RegexEngine) (fuel : Nat) (tbl : SubtemplateTable)
    (input : String) (t : Template) (m : Match)
    (h : try_match eng fuel tbl input t = some (.ok (some m))) :
    ∃ regex_str cap,
      convert_template_to_regex tbl fuel t = some (.ok regex_str) ∧
      eng.captures regex_str input = some cap ∧
      m.variable_bindings = collectBindings (eng.captureNames regex_str) cap ∧
      (∀ n v, (n, v) ∈ m.variable_bindings →
         ∃ raw, cap n = some raw ∧ v = rustTrim raw ∧ noEdgeWhitespace v = true) ∧
      (∀ n, cap n = none → m.get_binding n = none) := by
  unfold try_match at h
  cases hconv : convert_template_to_regex tbl fuel t with
  | none => rw [hconv] at h; exact absurd h (by simp)
  | some exc =>
    cases exc with
    | error e => rw [hconv] at h; exact absurd h (by simp)
    | ok regex_str =>
      rw [hconv] at h
      dsimp only at h
      by_cases hcomp : eng.compileOk regex_str = true
      · rw [if_pos hcomp] at h
        cases hcap : eng.captures regex_str input with
        | none => rw [hcap] at h; exact absurd h (by simp)
        | some cap =>
          rw [hcap] at h
          dsimp only at h
          have hm : Match.mk (collectBindings (eng.captureNames regex_str) cap) = m := by
            simpa using h
          refine ⟨regex_str, cap, rfl, hcap, by rw [← hm], ?_, ?_⟩
          · intro n v hmem
            rw [← hm] at hmem
            obtain ⟨raw, hc, hv⟩ := collectBindings_mem _ _ _ _ hmem
            exact ⟨raw, hc, hv, by rw [hv]; exact noEdgeWhitespace_rustTrim raw⟩
          · intro n hc
            rw [← hm]
            unfold Match.get_binding collectBindings
            exact lookupBinding_filterMap_none cap n hc _
      · rw [if_neg hcomp] at h
        exact absurd h (by simp)

/-- An engine model with one named group x capturing text with surrounding
whitespace, used as a concrete regex-crate behavior. -/
def engW : RegexEngine :=
  { compileOk := fun _ => true,
    captureNames := fun _ => [some "x", none],
    captures := fun _ _ => some (fun n => if n = "x" then some "  hi  " else none) }

/-- A template that is exactly the literal foo. -/
def fooTemplate : Template := Template.mk [Clause.mk [Symbol.mk (.Text "foo") false]]

/-- Witness for C8: the captured text is stored trimmed. -/
theorem c8_binding_trim_witness :
    try_match engW 1 [] "foo" fooTemplate = some (.ok (some (Match.mk [("x", "hi")]))) ∧
    (∃ regex_str cap,
      convert_template_to_regex [] 1 fooTemplate = some (.ok regex_str) ∧
      engW.captures regex_str "foo" = some cap ∧
      (Match.mk [("x", "hi")]).variable_bindings
        = collectBindings (engW.captureNames regex_str) cap ∧
      (∀ n v, (n, v) ∈ (Match.mk [("x", "hi")]).variable_bindings →
         ∃ raw, cap n = some raw ∧ v = rustTrim raw ∧ noEdgeWhitespace v = true) ∧
      (∀ n, cap n = none → (Match.mk [("x", "hi")]).get_binding n = none)) := by
  refine ⟨rfl, ?_⟩
  exact c8_binding_trim engW 1 [] "foo" fooTemplate (Match.mk [("x", "hi")]) rfl

/-- C5: dispatch is first-match.  Forward direction: find_function returns the
entry at index i when its template matches and every earlier entry produced no
match; backward direction: whatever find_function returns is the entry at some
index whose template matches while all earlier entries produced no match.  In
particular when entries at i and j with i less than j both match, the entry at
j is never selected. -/
theorem c5_first_match :
    (∀ (F : Type) (eng : RegexEngine) (fuel : Nat) (tbl : SubtemplateTable)
       (entries : List (Template × F)) (input : String) (i : Nat)
       (t : Template) (f : F) (m : Match),
       entries[i]? = some (t, f) →
       try_match eng fuel tbl input t = some (.ok (some m)) →
       (∀ k, k < i → ∃ (tk : Template) (fk : F), entries[k]? = some (tk, fk) ∧
          try_match eng fuel tbl input tk = some (.ok none)) →
       find_function eng fuel tbl entries input = some (.ok (some (f, m)))) ∧
    (∀ (F : Type) (eng : RegexEngine) (fuel : Nat) (tbl : SubtemplateTable)
       (entries : List (Template × F)) (input : String) (f : F) (m : Match),
       find_function eng fuel tbl entries input = some (.ok (some (f, m))) →
       ∃ (i : Nat) (t : Template), entries[i]? = some (t, f) ∧
         try_match eng fuel tbl input t = some (.ok (some m)) ∧
         ∀ k, k < i → ∃ (tk : Template) (fk : F), entries[k]? = some (tk, fk) ∧
           try_match eng fuel tbl input tk = some (.ok none)) := by
  constructor
  · intro F eng fuel tbl entries input
    induction entries with
    | nil => intro i t f m hi; simp at hi
    | cons e rest ih =>
      obtain ⟨t0, f0⟩ := e
      have step : find_function eng fuel tbl ((t0, f0) :: rest) input
          = match try_match eng fuel tbl input t0 with
            | none => none
            | some (.error e) => some (.error e)
            | some (.ok (some m)) => some (.ok (some (f0, m)))
            | some (.ok none) => find_function eng fuel tbl rest input := rfl
      intro i t f m hi hm hearlier
      cases i with
      | zero =>
        have he : t0 = t ∧ f0 = f := by simpa using hi
        obtain ⟨ht, hf⟩ := he
        subst ht
        subst hf
        rw [step, hm]
      | succ j =>
        obtain ⟨tk, fk, hk, hmk⟩ := hearlier 0 (Nat.succ_pos j)
        have he : t0 = tk ∧ f0 = fk := by simpa using hk
        obtain ⟨ht, hf⟩ := he
        subst ht
        subst hf
        rw [step, hmk]
        exact ih j t f m (by simpa using hi) hm (fun k hkj => by
          obtain ⟨tk2, fk2, hk2, hmk2⟩ := hearlier (k + 1) (Nat.succ_lt_succ hkj)
          exact ⟨tk2, fk2, by simpa using hk2, hmk2⟩)
  · intro F eng fuel tbl entries input
    induction entries with
    | nil =>
      intro f m h
      simp [find_function] at h
    | cons e rest ih =>
      obtain ⟨t0, f0⟩ := e
      have step : find_function eng fuel tbl ((t0, f0) :: rest) input
          = match try_match eng fuel tbl input t0 with
            | none => none
            | some (.error e) => some (.error e)
            | some (.ok (some m)) => some (.ok (some (f0, m)))
            | some (.ok none) => find_function eng fuel tbl rest input := rfl
      intro f m h
      rw [step] at h
      cases hm0 : try_match eng fuel tbl input t0 with
      | none => rw [hm0] at h; exact absurd h (by simp)
      | some exc =>
        cases exc with
        | error e2 => rw [hm0] at h; exact absurd h (by simp)
        | ok om =>
          cases om with
          | some m0 =>
            rw [hm0] at h
            have he : f0 = f ∧ m0 = m := by simpa using h
            obtain ⟨hf, hm2⟩ := he
            subst hf
            subst hm2
            exact ⟨0, t0, by simp, hm0, fun k hk => absurd hk (Nat.not_lt_zero k)⟩
          | none =>
            rw [hm0] at h
            dsimp only at h
            obtain ⟨i, t, hi, hm2, hearlier⟩ := ih f m h
            refine ⟨i + 1, t, by simpa using hi, hm2, fun k hk => ?_⟩
            cases k with
            | zero => exact ⟨t0, f0, by simp, hm0⟩
            | succ j =>
              obtain ⟨tk, fk, hk2, hmk⟩ := hearlier j (Nat.lt_of_succ_lt_succ hk)
              exact ⟨tk, fk, by simpa using hk2, hmk⟩

/-- Witness for C5: with two entries whose templates both match, the first one
is selected. -/
theorem c5_first_match_witness :
    (([(fooTemplate, 1), (fooTemplate, 2)] : List (Template × Nat))[0]?
      = some (fooTemplate, 1)) ∧
    try_match engW 1 [] "foo" fooTemplate = some (.ok (some (Match.mk [("x", "hi")]))) ∧
    find_function engW 1 [] [(fooTemplate, 1), (fooTemplate, 2)] "foo"
      = some (.ok (some (1, Match.mk [("x", "hi")]))) := by
  refine ⟨rfl, rfl, ?_⟩
  exact c5_first_match.1 Nat engW 1 [] [(fooTemplate, 1), (fooTemplate, 2)] "foo" 0
    fooTemplate 1 (Match.mk [("x", "hi")]) rfl rfl (fun k hk => absurd hk (Nat.not_lt_zero k))

/-- C4: when no template entry matches the sanitized input, the dispatcher
invokes the fallback, when one exists, with the single string argument equal
to the original un-normalized input; with no fallback the dispatch is a no-op
without error. -/
theorem c4_fallback_original_input :
    (∀ (eng : RegexEngine) (fuel : Nat) (st : HandlerState RFunctionModel)
       (input : String) (f : RFunctionModel),
       find_function eng fuel st.subtemplates st.templates (sanitizeInput input)
         = some (.ok none) →
       st.fallback = some f →
       run eng fuel st input = some (.ok (.callFunction f [CortexValue.String input]))) ∧
    (∀ (eng : RegexEngine) (fuel : Nat) (st : HandlerState RFunctionModel) (input : String),
       find_function eng fuel st.subtemplates st.templates (sanitizeInput input)
         = some (.ok none) →
       st.fallback = none →
       run eng fuel st input = some (.ok .noop)) := by
  constructor
  · intro eng fuel st input f hfind hfb
    simp only [run, get_fallback, hfind, hfb]
  · intro eng fuel st input hfind hfb
    simp only [run, get_fallback, hfind, hfb]

/-- A fallback handler taking one string parameter. -/
def fb0 : RFunctionModel := ⟨[("text", CortexTypeModel.string)]⟩

/-- A dispatcher state with no entries and a fallback. -/
def stFb : HandlerState RFunctionModel := ⟨[], [], some fb0⟩

/-- A dispatcher state with no entries and no fallback. -/
def stNoFb : HandlerState RFunctionModel := ⟨[], [], none⟩

/-- Witness for C4: the fallback receives the raw input with its punctuation
and case, not the sanitized form. -/
theorem c4_fallback_original_input_witness :
    find_function engW 1 stFb.subtemplates stFb.templates (sanitizeInput "Hello!")
      = some (.ok none) ∧
    run engW 1 stFb "Hello!" = some (.ok (.callFunction fb0 [CortexValue.String "Hello!"])) ∧
    run engW 1 stNoFb "Hello!" = some (.ok .noop) := by
  refine ⟨rfl, ?_, ?_⟩
  · exact c4_fallback_original_input.1 engW 1 stFb "Hello!" fb0 rfl rfl
  · exact c4_fallback_original_input.2 engW 1 stNoFb "Hello!" rfl rfl

/-- C10: for a matched entry the dispatcher invokes the handler with exactly
num_params arguments, argument i being the captured binding for parameter i
as a string value when it exists and the null value otherwise; the assembly
depends only on the parameter names, never on the declared parameter types,
and the handler return value is discarded (only the call is observable). -/
theorem c10_argument_assembly (eng : RegexEngine) (fuel : Nat)
    (st : HandlerState RFunctionModel) (input : String)
    (func : RFunctionModel) (inst : Match)
    (hfind : find_function eng fuel st.subtemplates st.templates (sanitizeInput input)
      = some (.ok (some (func, inst)))) :
    run eng fuel st input = some (.ok (.callFunction func (assembleValues func.params inst))) ∧
    (assembleValues func.params inst).length = func.params.length ∧
    (∀ i : Nat, (assembleValues func.params inst)[i]?
       = (func.params[i]?).map (fun param =>
           match inst.get_binding param.1 with
           | some binding => CortexValue.String binding
           | none => CortexValue.None)) ∧
    (∀ params2 : List (String × CortexTypeModel),
       params2.map Prod.fst = func.params.map Prod.fst →
       assembleValues params2 inst = assembleValues func.params inst) := by
  have key : ∀ ps : List (String × CortexTypeModel),
      assembleValues ps inst = (ps.map Prod.fst).map (fun name =>
        match inst.get_binding name with
        | some binding => CortexValue.String binding
        | none => CortexValue.None) := by
    intro ps
    simp [assembleValues, List.map_map]
  refine ⟨?_, ?_, ?_, ?_⟩
  · simp only [run, hfind]
  · simp [assembleValues]
  · intro i
    simp [assembleValues, List.getElem?_map]
  · intro params2 hp
    rw [key params2, key func.params, hp]

/-- A handler with one optional-string parameter named x. -/
def fnOptX : RFunctionModel := ⟨[("x", CortexTypeModel.optionalString)]⟩

/-- A dispatcher state with a single entry for the literal foo. -/
def stW : HandlerState RFunctionModel := ⟨[], [(fooTemplate, fnOptX)], none⟩

/-- Witness for C10: the matched handler is invoked with the bound value. -/
theorem c10_argument_assembly_witness :
    find_function engW 1 stW.subtemplates stW.templates (sanitizeInput "foo")
      = some (.ok (some (fnOptX, Match.mk [("x", "hi")]))) ∧
    run engW 1 stW "foo" = some (.ok (.callFunction fnOptX [CortexValue.String "hi"])) := by
  refine ⟨rfl, ?_⟩
  exact (c10_argument_assembly engW 1 stW "foo" fnOptX (Match.mk [("x", "hi")]) rfl).1

/-- Whether a run outcome is a RunnerError raised by the dispatcher itself. -/
def isRunnerError : Option (Except RunError RunAction) → Bool
  | some (.error (.runner _)) => true
  | _ => false

/-- A handler with one number-typed parameter named x. -/
def fnNum : RFunctionModel := ⟨[("x", CortexTypeModel.number)]⟩

/-- An engine whose match participates with no named captures. -/
def engNoCapture : RegexEngine :=
  { compileOk := fun _ => true,
    captureNames := fun _ => [],
    captures := fun _ _ => some (fun _ => none) }

/-- A dispatcher state with one entry for foo whose handler parameter x is
number-typed (neither string nor optional string). -/
def stC1 : HandlerState RFunctionModel := ⟨[], [(fooTemplate, fnNum)], none⟩

/-- C1: the dispatcher never raises BindingNotFound or InvalidParameterType:
no run outcome is a RunnerError, and on the concrete failing input foo, whose
entry has a number-typed parameter with no captured binding, run invokes the
handler with the null value instead of failing. -/
theorem c1_dispatch_never_raises_runner_errors :
    (∀ (eng : RegexEngine) (fuel : Nat) (st : HandlerState RFunctionModel) (input : String),
       isRunnerError (run eng fuel st input) = false) ∧
    run engNoCapture 1 stC1 "foo" = some (.ok (.callFunction fnNum [CortexValue.None])) := by
  refine ⟨?_, rfl⟩
  intro eng fuel st input
  cases hf : find_function eng fuel st.subtemplates st.templates (sanitizeInput input) with
  | none => simp [run, hf, isRunnerError]
  | some exc =>
    cases exc with
    | error e => simp [run, hf, isRunnerError]
    | ok om =>
      cases om with
      | some pair =>
        obtain ⟨func, inst⟩ := pair
        simp [run, hf, isRunnerError]
      | none =>
        cases hfb : st.fallback with
        | some f => simp [run, hf, get_fallback, hfb, isRunnerError]
        | none => simp [run, hf, get_fallback, hfb, isRunnerError]

end Homeboy
